import Mathlib

/-!
Shallow embedding of `src/siriusxm-app/main.py` (schmij97/radio-app):
the activation workflow engine (`SiriusXMActivator.activate_radio` and its
eight step functions), the shared progress record (`activation_status`,
`update_status`, `update_progress`, `run_activation`), the `/activate`
request handler, and the identifier store (`add_radio` over
`add_radio_to_db_sqlite`).

Modelling conventions:
- Python strings are Lean `String`s; `str.upper` / `str.strip` are modelled
  on their ASCII fragment (all data the program handles is ASCII).
- Each step function in the source wraps its entire body in `try/except`
  and returns a non-`None` value or `None`; one run is therefore driven by
  an environment `env : Step → StepResult` giving each step's outcome, and
  the request each step would send (URL, headers, form data) is computed
  from the run state exactly as the source builds it, including the
  `X-Voltmx-ReportingParams` value (`json.dumps` + `urllib.parse.quote`).
- The wall clock (`datetime.now().strftime("%H:%M:%S")`) is an oracle
  `clock : Nat → String` indexed by the number of status updates so far.
-/

/-- ASCII model of Python `str.upper`: `Char.toUpper` maps the basic latin
lower-case letters to upper case and leaves every other character
unchanged, which is Python's behaviour on ASCII text. -/
def pyUpper (s : String) : String := String.mk (s.data.map Char.toUpper)

/-- Python whitespace, ASCII fragment: space, tab, LF, VT, FF, CR. -/
def isPySpace (c : Char) : Bool :=
  c.toNat == 32 || (decide (9 ≤ c.toNat) && decide (c.toNat ≤ 13))

/-- Drop leading and trailing whitespace from a character list. -/
def stripChars (l : List Char) : List Char :=
  ((l.dropWhile isPySpace).reverse.dropWhile isPySpace).reverse

/-- ASCII model of Python `str.strip()`. -/
def pyStrip (s : String) : String := String.mk (stripChars s.data)

/-- UTF-8 encoding of one character, as a list of byte values. -/
def utf8Bytes (c : Char) : List Nat :=
  let n := c.toNat
  if n < 128 then [n]
  else if n < 2048 then [192 + n / 64, 128 + n % 64]
  else if n < 65536 then [224 + n / 4096, 128 + (n / 64) % 64, 128 + n % 64]
  else [240 + n / 262144, 128 + (n / 4096) % 64, 128 + (n / 64) % 64, 128 + n % 64]

/-- Upper-case hexadecimal digit, as produced by `urllib.parse.quote`. -/
def hexDigitUp (n : Nat) : Char :=
  if n < 10 then Char.ofNat (48 + n) else Char.ofNat (55 + n)

/-- Characters `urllib.parse.quote` never percent-encodes
(letters, digits, and `_ . - ~`). -/
def quoteUnreserved (c : Char) : Bool :=
  (decide (65 ≤ c.toNat) && decide (c.toNat ≤ 90)) ||
  (decide (97 ≤ c.toNat) && decide (c.toNat ≤ 122)) ||
  (decide (48 ≤ c.toNat) && decide (c.toNat ≤ 57)) ||
  c == Char.ofNat 95 || c == Char.ofNat 46 || c == Char.ofNat 45 || c == Char.ofNat 126

/-- Percent-encoding of one character (`%XX` per UTF-8 byte). -/
def pctEncode (c : Char) : List Char :=
  ((utf8Bytes c).map fun b =>
    [Char.ofNat 37, hexDigitUp (b / 16), hexDigitUp (b % 16)]).flatten

/-- Model of `urllib.parse.quote(s, safe="$:,")` as used by every step. -/
def pyQuoteSafe (s : String) : String :=
  String.mk ((s.data.map fun c =>
    if quoteUnreserved c || c == Char.ofNat 36 || c == Char.ofNat 58 || c == Char.ofNat 44
    then [c] else pctEncode c).flatten)

/-- Lower-case hexadecimal digit (used by `json.dumps` escapes). -/
def hexDigitLow (n : Nat) : Char :=
  if n < 10 then Char.ofNat (48 + n) else Char.ofNat (87 + n)

/-- Escaping of one character as done by Python `json.dumps` (all values
serialized by this program are printable ASCII, so this is exhaustive for
our inputs). -/
def jsonEscapeChar (c : Char) : List Char :=
  if c == Char.ofNat 34 then [Char.ofNat 92, Char.ofNat 34]
  else if c == Char.ofNat 92 then [Char.ofNat 92, Char.ofNat 92]
  else if c.toNat == 10 then [Char.ofNat 92, Char.ofNat 110]
  else if c.toNat == 9 then [Char.ofNat 92, Char.ofNat 116]
  else if c.toNat == 13 then [Char.ofNat 92, Char.ofNat 114]
  else if c.toNat == 8 then [Char.ofNat 92, Char.ofNat 98]
  else if c.toNat == 12 then [Char.ofNat 92, Char.ofNat 102]
  else if decide (c.toNat < 32) then
    [Char.ofNat 92, Char.ofNat 117, Char.ofNat 48, Char.ofNat 48,
     hexDigitLow (c.toNat / 16), hexDigitLow (c.toNat % 16)]
  else [c]

/-- A JSON string literal. -/
def jsonString (s : String) : String :=
  String.mk (Char.ofNat 34 :: (s.data.map jsonEscapeChar).flatten ++ [Char.ofNat 34])

/-- Model of `json.dumps(params, separators=(",", ":"))` for a dict of
strings; Python 3.7+ dicts preserve insertion order. -/
def jsonDumps (ps : List (String × String)) : String :=
  String.singleton (Char.ofNat 123) ++
  String.intercalate "," (ps.map fun p => jsonString p.1 ++ ":" ++ jsonString p.2) ++
  String.singleton (Char.ofNat 125)

/-- Device constant from `SiriusXMActivator.__init__`. -/
def deviceModel : String := "iPhone 14 Pro"

/-- Device constant from `SiriusXMActivator.__init__`. -/
def deviceiOSVersion : String := "17.0"

/-- App version constant from `SiriusXMActivator.__init__`. -/
def appVer : String := "3.1.0"

/-- User agent constant from `SiriusXMActivator.__init__`. -/
def userAgent : String := "SiriusXM%20Dealer/3.1.0 CFNetwork/1568.200.51 Darwin/24.1.0"

/-- Mutable per-run state of a `SiriusXMActivator` instance: the fields
written or read by the step functions. Python initializes
`radio_id_input` to `None`; it is assigned before its first read (at the
top of `activate_radio`), so the model starts it at `""`. -/
structure Activator where
  radio_id_input : String
  uuid4 : String
  auth_token : String
  seq : String
deriving DecidableEq

/-- `SiriusXMActivator.__init__` with the run's random `uuid.uuid4()`. -/
def mkActivator (uuid4 : String) : Activator :=
  { radio_id_input := "", uuid4 := uuid4, auth_token := "", seq := "" }

/-- The eight step functions of the workflow, in the order of the `steps`
list built in `activate_radio`. -/
inductive Step where
  | login
  | versionControl
  | getProperties
  | update_1
  | getCRM
  | blocklist
  | createAccount
  | update_2
deriving DecidableEq, Fintype

/-- Position of a step in the `steps` list of `activate_radio`. -/
def stepIdx : Step → Nat
  | .login => 0
  | .versionControl => 1
  | .getProperties => 2
  | .update_1 => 3
  | .getCRM => 4
  | .blocklist => 5
  | .createAccount => 6
  | .update_2 => 7

/-- The `steps` list of `(step_name, step_func)` pairs built in
`activate_radio`. -/
def stepsList : List (String × Step) :=
  [("🔐 Login", Step.login),
   ("📱 Version Control", Step.versionControl),
   ("⚙️ Get Properties", Step.getProperties),
   ("🔄 Device Refresh 1", Step.update_1),
   ("📊 CRM Info", Step.getCRM),
   ("🛡️ Blocklist Check", Step.blocklist),
   ("👤 Create Account", Step.createAccount),
   ("✅ Device Refresh 2", Step.update_2)]

/-- The loop's completion test for a step whose result is `None`:
`step_func == self.blocklist or step_func == self.createAccount or
step_func == self.update_2`.  These three steps are marked "Complete"
regardless of the value they return. -/
def lenient (s : Step) : Bool :=
  s == Step.blocklist || s == Step.createAccount || s == Step.update_2

/-- Outcome of invoking one step function.  Every step function wraps its
whole body in `try/except Exception` and returns either a non-`None`
value (`ok v`; `v` is the value `login` / `update_1` store into run
state, and is irrelevant for the other steps) or `None` (`fail`).
`exc m` models an exception escaping the invocation inside the loop's
`try` (in the source this can only come from the status callback, not
from a step function). -/
inductive StepResult where
  | ok (v : String)
  | fail
  | exc (msg : String)
deriving DecidableEq

/-- Run-state write a step performs when it succeeds: `login` assigns
`self.auth_token` from the response body, `update_1` assigns `self.seq`
from the response's `seqValue`; no other step writes run state. -/
def applyExtract : Step → String → Activator → Activator
  | .login, v, a => { a with auth_token := v }
  | .update_1, v, a => { a with seq := v }
  | _, _, a => a

/-- One HTTP request as a step function builds it: URL, header dict and
form-data dict (in insertion order). -/
structure Request where
  url : String
  headers : List (String × String)
  data : List (String × String)
deriving DecidableEq

/-- The params dict each step builds inline for
`X-Voltmx-ReportingParams`, in insertion order; `login` omits the
`fid` key, every other step passes its form id. -/
def paramsList (a : Activator) (fid : Option String) (svcid : String) :
    List (String × String) :=
  [("os", deviceiOSVersion), ("dm", deviceModel), ("did", a.uuid4), ("ua", "iPhone"),
   ("aid", "DealerApp"), ("aname", "SiriusXM Dealer"), ("chnl", "mobile"), ("plat", "ios"),
   ("aver", appVer), ("atype", "native"), ("stype", "b2c"), ("kuid", ""),
   ("mfaid", "df7be3dc-e278-436c-b2f8-4cfde321df0a"),
   ("mfbaseid", "efb9acb6-daea-4f2f-aeb3-b17832bdd47b"),
   ("mfaname", "DealerApp"), ("sdkversion", "9.5.36"), ("sdktype", "js")]
  ++ (match fid with | some f => [("fid", f)] | none => [])
  ++ [("sessiontype", "I"), ("clientUUID", "1742536405634-41a8-0de0-125c"),
      ("rsid", "1742536405654-b954-784f-38d2"), ("svcid", svcid)]

/-- `urllib.parse.quote(json.dumps(params, separators=(",", ":")), safe="$:,")`. -/
def reportingParams (a : Activator) (fid : Option String) (svcid : String) : String :=
  pyQuoteSafe (jsonDumps (paramsList a fid svcid))

/-- The header dict the seven post-login steps repeat verbatim. -/
def postLoginHeaders (a : Activator) (rp : String) : List (String × String) :=
  [("Accept", "*/*"), ("X-Voltmx-API-Version", "1.0"), ("X-Voltmx-DeviceId", a.uuid4),
   ("Accept-Language", "en-us"), ("Accept-Encoding", "br, gzip, deflate"),
   ("Content-Type", "application/x-www-form-urlencoded"), ("User-Agent", userAgent),
   ("X-Voltmx-Authorization", a.auth_token), ("X-Voltmx-ReportingParams", rp)]

/-- The request `login` sends. -/
def loginRequest (a : Activator) : Request :=
  { url := "https://dealerapp.siriusxm.com/authService/100000002/login",
    headers :=
      [("X-Voltmx-Platform-Type", "ios"), ("Accept", "application/json"),
       ("X-Voltmx-App-Secret", "c086fca8646a72cf391f8ae9f15e5331"),
       ("Accept-Language", "en-us"), ("X-Voltmx-SDK-Type", "js"),
       ("Accept-Encoding", "br, gzip, deflate"),
       ("Content-Type", "application/x-www-form-urlencoded"), ("User-Agent", userAgent),
       ("X-Voltmx-SDK-Version", "9.5.36"),
       ("X-Voltmx-App-Key", "67cfe0220c41a54cb4e768723ad56b41"),
       ("X-Voltmx-ReportingParams", reportingParams a none "login_$anonymousProvider")],
    data := [] }

/-- The request `versionControl` sends. -/
def versionControlRequest (a : Activator) : Request :=
  { url := "https://dealerapp.siriusxm.com/services/DealerAppService7/VersionControl",
    headers := postLoginHeaders a (reportingParams a (some "frmHome") "VersionControl"),
    data := [("deviceCategory", "iPhone"), ("appver", appVer), ("deviceLocale", "en_US"),
             ("deviceModel", deviceModel), ("deviceVersion", deviceiOSVersion),
             ("deviceType", "")] }

/-- The request `getProperties` sends (no form data). -/
def getPropertiesRequest (a : Activator) : Request :=
  { url := "https://dealerapp.siriusxm.com/services/DealerAppService7/getProperties",
    headers := postLoginHeaders a (reportingParams a (some "frmHome") "getProperties"),
    data := [] }

/-- The request `update_1` ("Device Refresh 1") sends. -/
def update1Request (a : Activator) : Request :=
  { url := "https://dealerapp.siriusxm.com/services/USUpdateDeviceSATRefresh/updateDeviceSATRefreshWithPriority",
    headers := postLoginHeaders a
      (reportingParams a (some "frmRadioRefresh") "updateDeviceSATRefreshWithPriority"),
    data := [("deviceId", a.radio_id_input), ("appVersion", appVer), ("deviceID", a.uuid4),
             ("provisionPriority", "2"), ("provisionType", "activate")] }

/-- The request `getCRM` sends. -/
def getCRMRequest (a : Activator) : Request :=
  { url := "https://dealerapp.siriusxm.com/services/DemoConsumptionRules/GetCRMAccountPlanInformation",
    headers := postLoginHeaders a
      (reportingParams a (some "frmRadioRefresh") "GetCRMAccountPlanInformation"),
    data := [("seqVal", a.seq), ("deviceId", a.radio_id_input)] }

/-- The request `blocklist` sends. -/
def blocklistRequest (a : Activator) : Request :=
  { url := "https://dealerapp.siriusxm.com/services/USBlockListDevice/BlockListDevice",
    headers := postLoginHeaders a (reportingParams a (some "frmRadioRefresh") "BlockListDevice"),
    data := [("deviceId", a.uuid4)] }

/-- The request `createAccount` sends. -/
def createAccountRequest (a : Activator) : Request :=
  { url := "https://dealerapp.siriusxm.com/services/DealerAppService3/CreateAccount",
    headers := postLoginHeaders a (reportingParams a (some "frmRadioRefresh") "CreateAccount"),
    data := [("seqVal", a.seq), ("deviceId", a.radio_id_input), ("oracleCXFailed", "1"),
             ("appVersion", appVer)] }

/-- The request `update_2` ("Device Refresh 2") sends. -/
def update2Request (a : Activator) : Request :=
  { url := "https://dealerapp.siriusxm.com/services/USUpdateDeviceRefreshForCC/updateDeviceSATRefreshWithPriority",
    headers := postLoginHeaders a
      (reportingParams a (some "frmRadioRefresh") "updateDeviceSATRefreshWithPriority"),
    data := [("deviceId", a.radio_id_input), ("provisionPriority", "2"),
             ("appVersion", appVer),
             ("device_Type", pyQuoteSafe ("iPhone " ++ deviceModel)),
             ("deviceID", a.uuid4),
             ("os_Version", pyQuoteSafe ("iPhone " ++ deviceiOSVersion)),
             ("provisionType", "activate")] }

/-- The request a given step sends from the current run state. -/
def stepRequest (s : Step) (a : Activator) : Request :=
  match s with
  | .login => loginRequest a
  | .versionControl => versionControlRequest a
  | .getProperties => getPropertiesRequest a
  | .update_1 => update1Request a
  | .getCRM => getCRMRequest a
  | .blocklist => blocklistRequest a
  | .createAccount => createAccountRequest a
  | .update_2 => update2Request a

/-- The process-wide `activation_status` dict. -/
structure ActivationStatus where
  progress : Nat
  status : String
  completed : Bool
  success : Bool
deriving DecidableEq

/-- Value of `activation_status` at module load. -/
def initialStatus : ActivationStatus :=
  { progress := 0, status := "Ready", completed := false, success := false }

/-- `update_status(message)`: appends one timestamped line to the status
log; `ts` stands for `datetime.now().strftime("%H:%M:%S")`. -/
def update_status (ts msg : String) (st : ActivationStatus) : ActivationStatus :=
  { st with status := st.status ++ "\n[" ++ ts ++ "] " ++ msg }

/-- `update_progress(value)`: overwrites the progress counter. -/
def update_progress (v : Nat) (st : ActivationStatus) : ActivationStatus :=
  { st with progress := v }

/-- The shared record together with the number of status updates made so
far (used to index the timestamp oracle). -/
structure RunState where
  record : ActivationStatus
  tick : Nat
deriving DecidableEq

/-- One `status_callback(msg)` call (that is, `update_status`) with the
timestamp supplied by the clock oracle. -/
def tickStatus (clock : Nat → String) (msg : String) (rs : RunState) : RunState :=
  { record := update_status (clock rs.tick) msg rs.record, tick := rs.tick + 1 }

/-- One `progress_callback(v)` call (that is, `update_progress`). -/
def progressOn (v : Nat) (rs : RunState) : RunState :=
  { rs with record := update_progress v rs.record }

/-- The two callbacks issued at the top of each loop iteration:
`status_callback(f"Step I/8: NAME")` then `progress_callback(i + 1)`
(the `/8` is a literal in the source). -/
def stepEntry (clock : Nat → String) (i : Nat) (nm : String) (rs : RunState) : RunState :=
  progressOn (i + 1) (tickStatus clock ("Step " ++ toString (i + 1) ++ "/8: " ++ nm) rs)

/-- Result of one workflow run: the boolean `activate_radio` returns, the
final shared record and tick, the final activator state, and the list of
steps invoked paired with the request each sent. -/
structure RunOutcome where
  result : Bool
  state : RunState
  act : Activator
  trace : List (Step × Request)
deriving DecidableEq

/-- Prepend one invoked step to a run's trace. -/
def addTrace (p : Step × Request) (o : RunOutcome) : RunOutcome :=
  { o with trace := p :: o.trace }

/-- The `for i, (step_name, step_func) in enumerate(steps)` loop of
`activate_radio`, from a suffix of the step list: per step, emit the
"Step i+1/8" status line, set the progress counter to `i+1`, invoke the
step; on a non-`None` result, or on `None` from one of the three lenient
steps, log "Complete" and continue; on `None` from any other step log
"Failed" and return `False`; on an exception log the error and return
`False`.  When the list is exhausted the loop logs the completion banner
and returns `True`. -/
def runStepsFrom (clock : Nat → String) (env : Step → StepResult) :
    List (String × Step) → Nat → Activator → RunState → RunOutcome
  | [], _, a, rs =>
    { result := true, state := tickStatus clock "🎉 Activation completed!" rs,
      act := a, trace := [] }
  | (nm, s) :: rest, i, a, rs =>
    match env s with
    | .exc m =>
      { result := false,
        state := tickStatus clock ("❌ " ++ nm ++ ": Error - " ++ m.take 100)
          (stepEntry clock i nm rs),
        act := a, trace := [(s, stepRequest s a)] }
    | .fail =>
      if lenient s then
        addTrace (s, stepRequest s a)
          (runStepsFrom clock env rest (i + 1) a
            (tickStatus clock ("✅ " ++ nm ++ ": Complete") (stepEntry clock i nm rs)))
      else
        { result := false,
          state := tickStatus clock ("❌ " ++ nm ++ ": Failed") (stepEntry clock i nm rs),
          act := a, trace := [(s, stepRequest s a)] }
    | .ok v =>
      addTrace (s, stepRequest s a)
        (runStepsFrom clock env rest (i + 1) (applyExtract s v a)
          (tickStatus clock ("✅ " ++ nm ++ ": Complete") (stepEntry clock i nm rs)))

/-- `SiriusXMActivator.activate_radio(radio_id, status_callback,
progress_callback)`: store `radio_id.upper()` in run state, log the
start banner, then run the step loop. -/
def activateRadio (clock : Nat → String) (env : Step → StepResult)
    (radio_id uuid4 : String) (rs : RunState) : RunOutcome :=
  runStepsFrom clock env stepsList 0
    ((mkActivator uuid4) |> fun a0 => { a0 with radio_id_input := pyUpper radio_id })
    (tickStatus clock ("🔄 Starting activation for: " ++ pyUpper radio_id) rs)

/-- The steps a run invoked, in invocation order. -/
def invokedList (o : RunOutcome) : List Step := o.trace.map Prod.fst

/-- The tail of `run_activation(radio_id)` after
`activator.activate_radio(...)` has either returned a boolean or raised:
on a boolean, set `completed`, `success`, `progress = 9` and append the
final banner; on an exception, set `completed = True`, `success = False`
and append the error line (`progress` is left untouched there). -/
def runActivation (radio_id : String) (r : Except String Bool)
    (st : ActivationStatus) : ActivationStatus :=
  match r with
  | Except.ok b =>
    { progress := 9,
      status := st.status ++
        (if b then "\n🎉 Radio " ++ radio_id ++ " activated successfully!"
         else "\n❌ Radio " ++ radio_id ++ " activation failed"),
      completed := true, success := b }
  | Except.error e =>
    { progress := st.progress,
      status := st.status ++ "\n❌ Error: " ++ e,
      completed := true, success := false }

/-- One whole worker-thread body: `run_activation(radio_id)` running
`activate_radio` against the shared record (the callbacks
`update_status` / `update_progress` are total, so the in-loop exception
case does not arise from them in this composition). -/
def fullRun (clock : Nat → String) (env : Step → StepResult)
    (radio_id uuid4 : String) (st0 : ActivationStatus) : ActivationStatus :=
  runActivation radio_id
    (Except.ok (activateRadio clock env radio_id uuid4 { record := st0, tick := 0 }).result)
    (activateRadio clock env radio_id uuid4 { record := st0, tick := 0 }).state.record

/-- The `/activate` POST handler body after the login guard: reject a
missing or empty radio id with a 400 error, otherwise overwrite the
shared record with the reset value (and then start the worker thread).
The previous record is discarded unconditionally. -/
def activateRoute (radio_id : Option String) (_prev : ActivationStatus) :
    Except String ActivationStatus :=
  match radio_id with
  | none => Except.error "Missing radio ID"
  | some r =>
    if r = "" then Except.error "Missing radio ID"
    else Except.ok
      { progress := 0, status := "Starting activation...",
        completed := false, success := false }

/-- Whether invoking `s` makes the loop return `False`: an exception
always does, a `None` result does unless the step is lenient. -/
def stepAborts (env : Step → StepResult) (s : Step) : Bool :=
  match env s with
  | .exc _ => true
  | .fail => !lenient s
  | .ok _ => false

/-- The steps the loop invokes: every step up to and including the first
aborting one. -/
def takeUntilAbort (env : Step → StepResult) : List Step → List Step
  | [] => []
  | s :: r => if stepAborts env s then [s] else s :: takeUntilAbort env r

/-- Is the step outcome a non-`None` value. -/
def isOkB : StepResult → Bool
  | .ok _ => true
  | _ => false

/-- Is the step outcome an exception. -/
def isExcB : StepResult → Bool
  | .exc _ => true
  | _ => false

/-- No `getCRM` / `createAccount` entry occurs before the first
`update_1` entry (holds for the source's step order). -/
def seqOrderOK : List Step → Bool
  | [] => true
  | s :: r => !(s == Step.getCRM || s == Step.createAccount) &&
      (s == Step.update_1 || seqOrderOK r)

/-- Do the step's request form fields include the radio identifier
(`deviceId` from `self.radio_id_input`)? True for `update_1`, `getCRM`,
`createAccount` and `update_2`. -/
def usesDeviceId (s : Step) : Bool :=
  s == Step.update_1 || s == Step.getCRM || s == Step.createAccount || s == Step.update_2

/-- Modelled from the spec: the canonical ordered step chain named by the
claim ("login → version-control → get-properties → device-refresh-1 →
CRM-info → db-update → blocklist → oracle-lookup → create-account →
device-refresh-2"). -/
def canonicalChainSpec : List String :=
  ["login", "version-control", "get-properties", "device-refresh-1", "CRM-info",
   "db-update", "blocklist", "oracle-lookup", "create-account", "device-refresh-2"]

/-- Spec-style name of each step the code actually has. -/
def stepSpecName : Step → String
  | .login => "login"
  | .versionControl => "version-control"
  | .getProperties => "get-properties"
  | .update_1 => "device-refresh-1"
  | .getCRM => "CRM-info"
  | .blocklist => "blocklist"
  | .createAccount => "create-account"
  | .update_2 => "device-refresh-2"

/-- Modelled from the spec: the normalization the claim asserts
(uppercased AND trimmed).  The code only uppercases. -/
def specNormalize (s : String) : String := pyUpper (pyStrip s)

/-- One row of the `radio_ids` table. -/
structure RadioRec where
  name : String
  radio_id : String
  is_default : Bool
deriving DecidableEq

/-- Single-quote character as a string (used in the duplicate error
message). -/
def apos : String := String.singleton (Char.ofNat 39)

/-- `add_radio_to_db_sqlite(name, radio_id)`: exact-match duplicate check
on `radio_id`, then insert; on a duplicate it raises `ValueError` with
the existing row's name in the message. -/
def add_radio_to_db_sqlite (store : List RadioRec) (name radio_id : String) :
    Except String (List RadioRec) :=
  match store.find? (fun r => r.radio_id == radio_id) with
  | some existing =>
    Except.error ("Radio ID " ++ apos ++ radio_id ++ apos ++ " already exists for " ++
      apos ++ existing.name ++ apos)
  | none => Except.ok (store ++ [{ name := name, radio_id := radio_id, is_default := false }])

/-- The `/api/radios/add` handler body after the admin check:
`name = data.get("name", "").strip()`,
`radio_id = data.get("radio_id", "").strip().upper()`, reject blank
fields with a 400 error, then call the store.  Returns the store after
the call together with the error message, if any. -/
def add_radio (store : List RadioRec) (nameRaw ridRaw : String) :
    List RadioRec × Option String :=
  let name := pyStrip nameRaw
  let radio_id := pyUpper (pyStrip ridRaw)
  if name = "" || radio_id = "" then (store, some "Name and Radio ID are required")
  else
    match add_radio_to_db_sqlite store name radio_id with
    | Except.ok store2 => (store2, none)
    | Except.error e => (store, some e)

/-- Store invariant from the data model: every identifier is a non-empty,
trimmed, upper-case-normalized string. -/
def storeNormalized (store : List RadioRec) : Bool :=
  store.all fun r =>
    !(r.radio_id == "") && pyStrip r.radio_id == r.radio_id && pyUpper r.radio_id == r.radio_id

/-- A fixed timestamp oracle for concrete runs. -/
def clock0 : Nat → String := fun _ => "00:00:00"

/-- Environment in which every step returns a non-`None` value. -/
def envAllOk : Step → StepResult := fun _ => StepResult.ok "TOKEN"

/-- Environment in which the login step returns `None` and every other
step would succeed. -/
def envLoginFail : Step → StepResult :=
  fun s => if s == Step.login then StepResult.fail else StepResult.ok "TOKEN"

/-- Environment threading a distinguished login token and sequence value. -/
def envThread : Step → StepResult :=
  fun s =>
    match s with
    | Step.login => StepResult.ok "TOK"
    | Step.update_1 => StepResult.ok "SEQ"
    | _ => StepResult.ok "X"

/-- Environment in which exactly the three lenient steps return `None`. -/
def envLenFail : Step → StepResult :=
  fun s => if lenient s then StepResult.fail else StepResult.ok "TOKEN"

/-- Run state at the start of a worker thread over a fresh record. -/
def rs0 : RunState := { record := initialStatus, tick := 0 }

/-- A one-row normalized store for concrete store operations. -/
def store0 : List RadioRec :=
  [{ name := "Test Car", radio_id := "ABC12345", is_default := false }]

/-! Helper lemmas about the step loop. -/

/-- The boolean `activate_radio` returns is: no step in the (remaining)
list aborts. -/
theorem runStepsFrom_result (clock : Nat → String) (env : Step → StepResult) :
    ∀ (L : List (String × Step)) (i : Nat) (a : Activator) (rs : RunState),
      (runStepsFrom clock env L i a rs).result = L.all fun p => !stepAborts env p.2 := by
  intro L
  induction L with
  | nil => intro i a rs; rfl
  | cons hd tl ih =>
    intro i a rs
    obtain ⟨nm, s⟩ := hd
    simp only [runStepsFrom, List.all_cons]
    cases h : env s with
    | exc m => simp [stepAborts, h]
    | fail =>
      by_cases hl : lenient s
      · simp [stepAborts, h, hl, addTrace, ih]
      · simp [stepAborts, h, hl]
    | ok v => simp [stepAborts, h, addTrace, ih]

/-- The invoked steps are everything up to and including the first
aborting step. -/
theorem runStepsFrom_invoked (clock : Nat → String) (env : Step → StepResult) :
    ∀ (L : List (String × Step)) (i : Nat) (a : Activator) (rs : RunState),
      invokedList (runStepsFrom clock env L i a rs) = takeUntilAbort env (L.map Prod.snd) := by
  intro L
  induction L with
  | nil => intro i a rs; rfl
  | cons hd tl ih =>
    intro i a rs
    obtain ⟨nm, s⟩ := hd
    simp only [runStepsFrom, List.map_cons, takeUntilAbort]
    cases h : env s with
    | exc m => simp [stepAborts, h, invokedList]
    | fail =>
      by_cases hl : lenient s
      · simp [stepAborts, h, hl, addTrace, invokedList, invokedList] at ih ⊢
        exact ih (i + 1) a _
      · simp [stepAborts, h, hl, invokedList]
    | ok v =>
      simp [stepAborts, h, addTrace, invokedList] at ih ⊢
      exact ih (i + 1) _ _

/-- Membership in `takeUntilAbort` implies membership in the list. -/
theorem takeUntilAbort_subset (env : Step → StepResult) :
    ∀ (L : List Step) (t : Step), t ∈ takeUntilAbort env L → t ∈ L := by
  intro L
  induction L with
  | nil => intro t ht; simp [takeUntilAbort] at ht
  | cons u r ih =>
    intro t ht
    by_cases hu : stepAborts env u
    · simp [takeUntilAbort, hu] at ht
      simp [ht]
    · simp [takeUntilAbort, hu] at ht
      rcases ht with h | h
      · simp [h]
      · exact List.mem_cons_of_mem _ (ih t h)

/-- If nothing aborts, every step is invoked. -/
theorem takeUntilAbort_all (env : Step → StepResult) :
    ∀ (L : List Step), (∀ s ∈ L, stepAborts env s = false) → takeUntilAbort env L = L := by
  intro L
  induction L with
  | nil => intro _; rfl
  | cons u r ih =>
    intro h
    have hu := h u (List.mem_cons_self u r)
    simp [takeUntilAbort, hu]
    exact ih fun s hs => h s (List.mem_cons_of_mem _ hs)

/-- If an aborting step was invoked, it is the last invoked step: every
invoked step sits at an index no larger than its. -/
theorem takeUntilAbort_le_abort (env : Step → StepResult) (s : Step)
    (hs : stepAborts env s = true) :
    ∀ (L : List Step), List.Pairwise (fun x y => stepIdx x < stepIdx y) L →
      s ∈ takeUntilAbort env L →
      ∀ t ∈ takeUntilAbort env L, stepIdx t ≤ stepIdx s := by
  intro L
  induction L with
  | nil => intro _ hmem; simp [takeUntilAbort] at hmem
  | cons u r ih =>
    intro hpw hmem t ht
    rw [List.pairwise_cons] at hpw
    by_cases hu : stepAborts env u
    · simp [takeUntilAbort, hu] at hmem ht
      subst hmem; subst ht; exact Nat.le_refl _
    · simp [takeUntilAbort, hu] at hmem ht
      rcases hmem with rfl | hmem
      · rw [hs] at hu; exact absurd rfl hu
      · rcases ht with rfl | ht
        · exact Nat.le_of_lt (hpw.1 s (takeUntilAbort_subset env r s hmem))
        · exact ih hpw.2 hmem t ht

/-- The concrete step order is strictly increasing in `stepIdx`. -/
theorem stepsOrder_pairwise :
    List.Pairwise (fun x y => stepIdx x < stepIdx y) (stepsList.map Prod.snd) := by decide

/-- The step loop never changes `radio_id_input`. -/
theorem runStepsFrom_radio_id (clock : Nat → String) (env : Step → StepResult) :
    ∀ (L : List (String × Step)) (i : Nat) (a : Activator) (rs : RunState),
      (runStepsFrom clock env L i a rs).act.radio_id_input = a.radio_id_input := by
  intro L
  induction L with
  | nil => intro i a rs; rfl
  | cons hd tl ih =>
    intro i a rs
    obtain ⟨nm, s⟩ := hd
    simp only [runStepsFrom]
    cases h : env s with
    | exc m => rfl
    | fail =>
      by_cases hl : lenient s
      · simp only [hl, if_true, addTrace]
        exact ih (i + 1) a _
      · simp [hl]
    | ok v =>
      simp only [addTrace]
      rw [ih]
      cases s <;> rfl

/-- Every request carrying the radio identifier carries
`("deviceId", radio_id_input)` in its form data. -/
theorem stepRequest_deviceId (s : Step) (a : Activator) (h : usesDeviceId s = true) :
    ("deviceId", a.radio_id_input) ∈ (stepRequest s a).data := by
  cases s <;> simp_all [usesDeviceId, stepRequest, update1Request, getCRMRequest,
    createAccountRequest, update2Request]

/-- Along the loop, every request of a device-identifier step carries the
(unchanging) radio identifier. -/
theorem runStepsFrom_trace_deviceId (clock : Nat → String) (env : Step → StepResult) :
    ∀ (L : List (String × Step)) (i : Nat) (a : Activator) (rs : RunState),
      ∀ p ∈ (runStepsFrom clock env L i a rs).trace, usesDeviceId p.1 = true →
        ("deviceId", a.radio_id_input) ∈ p.2.data := by
  intro L
  induction L with
  | nil => intro i a rs p hp; simp [runStepsFrom] at hp
  | cons hd tl ih =>
    intro i a rs p hp hu
    obtain ⟨nm, s⟩ := hd
    simp only [runStepsFrom] at hp
    cases h : env s with
    | exc m =>
      rw [h] at hp
      simp at hp
      subst hp
      exact stepRequest_deviceId s a hu
    | fail =>
      rw [h] at hp
      by_cases hl : lenient s
      · simp [hl, addTrace] at hp
        rcases hp with rfl | hp
        · exact stepRequest_deviceId s a hu
        · exact ih (i + 1) a _ p hp hu
      · simp [hl] at hp
        subst hp
        exact stepRequest_deviceId s a hu
    | ok v =>
      rw [h] at hp
      simp [addTrace] at hp
      rcases hp with rfl | hp
      · exact stepRequest_deviceId s a hu
      · have := ih (i + 1) (applyExtract s v a) _ p hp hu
        have hr : (applyExtract s v a).radio_id_input = a.radio_id_input := by
          cases s <;> rfl
        rwa [hr] at this

/-- Every post-login request carries the current `auth_token` in its
`X-Voltmx-Authorization` header. -/
theorem stepRequest_auth (s : Step) (a : Activator) (h : s ≠ Step.login) :
    ("X-Voltmx-Authorization", a.auth_token) ∈ (stepRequest s a).headers := by
  cases s <;> simp_all [stepRequest, versionControlRequest, getPropertiesRequest,
    update1Request, getCRMRequest, blocklistRequest, createAccountRequest,
    update2Request, postLoginHeaders]

/-- Once the auth token is `t`, it stays `t` for the rest of the loop
(only a successful `login` writes it, and then it writes `t` again). -/
theorem runStepsFrom_act_auth_inv (clock : Nat → String) (env : Step → StepResult)
    (t : String) (hlogin : env Step.login = StepResult.ok t) :
    ∀ (L : List (String × Step)) (i : Nat) (a : Activator) (rs : RunState),
      a.auth_token = t → (runStepsFrom clock env L i a rs).act.auth_token = t := by
  intro L
  induction L with
  | nil => intro i a rs ha; exact ha
  | cons hd tl ih =>
    intro i a rs ha
    obtain ⟨nm, s⟩ := hd
    simp only [runStepsFrom]
    cases h : env s with
    | exc m => exact ha
    | fail =>
      by_cases hl : lenient s
      · simp only [hl, if_true, addTrace]
        exact ih (i + 1) a _ ha
      · simp [hl]; exact ha
    | ok v =>
      simp only [addTrace]
      apply ih
      cases s with
      | login => rw [hlogin] at h; cases h; exact rfl
      | update_1 => exact ha
      | versionControl => exact ha
      | getProperties => exact ha
      | getCRM => exact ha
      | blocklist => exact ha
      | createAccount => exact ha
      | update_2 => exact ha

/-- If `login` was invoked (and returns the token `t`), the final run
state holds `auth_token = t`. -/
theorem runStepsFrom_act_auth_mem (clock : Nat → String) (env : Step → StepResult)
    (t : String) (hlogin : env Step.login = StepResult.ok t) :
    ∀ (L : List (String × Step)) (i : Nat) (a : Activator) (rs : RunState),
      Step.login ∈ invokedList (runStepsFrom clock env L i a rs) →
      (runStepsFrom clock env L i a rs).act.auth_token = t := by
  intro L
  induction L with
  | nil => intro i a rs hm; simp [runStepsFrom, invokedList] at hm
  | cons hd tl ih =>
    intro i a rs hm
    obtain ⟨nm, s⟩ := hd
    simp only [runStepsFrom] at hm ⊢
    cases h : env s with
    | exc m =>
      rw [h] at hm
      simp [invokedList] at hm
      subst hm; rw [hlogin] at h; cases h
    | fail =>
      rw [h] at hm
      by_cases hl : lenient s
      · simp only [hl, if_true, addTrace] at hm ⊢
        simp [invokedList] at hm
        rcases hm with rfl | hm
        · rw [hlogin] at h; cases h
        · exact ih (i + 1) a _ (by simpa [invokedList] using hm)
      · simp [hl, invokedList] at hm
        subst hm; rw [hlogin] at h; cases h
    | ok v =>
      rw [h] at hm
      simp only [addTrace] at hm ⊢
      simp [invokedList] at hm
      rcases hm with rfl | hm
      · rw [hlogin] at h; cases h
        exact runStepsFrom_act_auth_inv clock env t hlogin tl (i + 1) _ _ rfl
      · exact ih (i + 1) _ _ (by simpa [invokedList] using hm)

/-- Every request a step other than `login` sends during the loop carries
the login token `t` in its `X-Voltmx-Authorization` header, provided the
token is already `t` or the list starts with `login`. -/
theorem runStepsFrom_trace_auth (clock : Nat → String) (env : Step → StepResult)
    (t : String) (hlogin : env Step.login = StepResult.ok t) :
    ∀ (L : List (String × Step)) (i : Nat) (a : Activator) (rs : RunState),
      (a.auth_token = t ∨ (L.map Prod.snd).head? = some Step.login) →
      ∀ p ∈ (runStepsFrom clock env L i a rs).trace,
        p.1 = Step.login ∨ ("X-Voltmx-Authorization", t) ∈ p.2.headers := by
  intro L
  induction L with
  | nil => intro i a rs _ p hp; simp [runStepsFrom] at hp
  | cons hd tl ih =>
    intro i a rs hpre p hp
    obtain ⟨nm, s⟩ := hd
    simp only [runStepsFrom] at hp
    rcases hpre with ha | hhead
    · cases h : env s with
      | exc m =>
        rw [h] at hp; simp at hp; subst hp
        by_cases hs : s = Step.login
        · exact Or.inl hs
        · exact Or.inr (ha ▸ stepRequest_auth s a hs)
      | fail =>
        rw [h] at hp
        by_cases hl : lenient s
        · simp [hl, addTrace] at hp
          rcases hp with rfl | hp
          · by_cases hs : s = Step.login
            · exact Or.inl hs
            · exact Or.inr (ha ▸ stepRequest_auth s a hs)
          · exact ih (i + 1) a _ (Or.inl ha) p hp
        · simp [hl] at hp; subst hp
          by_cases hs : s = Step.login
          · exact Or.inl hs
          · exact Or.inr (ha ▸ stepRequest_auth s a hs)
      | ok v =>
        rw [h] at hp
        simp [addTrace] at hp
        rcases hp with rfl | hp
        · by_cases hs : s = Step.login
          · exact Or.inl hs
          · exact Or.inr (ha ▸ stepRequest_auth s a hs)
        · refine ih (i + 1) (applyExtract s v a) _ (Or.inl ?_) p hp
          cases s with
          | login => rw [hlogin] at h; cases h; exact rfl
          | update_1 => exact ha
          | versionControl => exact ha
          | getProperties => exact ha
          | getCRM => exact ha
          | blocklist => exact ha
          | createAccount => exact ha
          | update_2 => exact ha
    · simp at hhead
      subst hhead
      rw [hlogin] at hp
      simp [addTrace] at hp
      rcases hp with rfl | hp
      · exact Or.inl rfl
      · exact ih (i + 1) _ _ (Or.inl rfl) p hp

/-- The two seq-consuming requests carry the current `seq` as `seqVal`. -/
theorem stepRequest_seqVal (s : Step) (a : Activator)
    (h : s = Step.getCRM ∨ s = Step.createAccount) :
    ("seqVal", a.seq) ∈ (stepRequest s a).data := by
  rcases h with rfl | rfl <;> simp [stepRequest, getCRMRequest, createAccountRequest]

/-- Once `seq = v`, it stays `v` for the rest of the loop (only a
successful `update_1` writes it, and then it writes `v` again). -/
theorem runStepsFrom_act_seq_inv (clock : Nat → String) (env : Step → StepResult)
    (v : String) (hupd : env Step.update_1 = StepResult.ok v) :
    ∀ (L : List (String × Step)) (i : Nat) (a : Activator) (rs : RunState),
      a.seq = v → (runStepsFrom clock env L i a rs).act.seq = v := by
  intro L
  induction L with
  | nil => intro i a rs ha; exact ha
  | cons hd tl ih =>
    intro i a rs ha
    obtain ⟨nm, s⟩ := hd
    simp only [runStepsFrom]
    cases h : env s with
    | exc m => exact ha
    | fail =>
      by_cases hl : lenient s
      · simp only [hl, if_true, addTrace]
        exact ih (i + 1) a _ ha
      · simp [hl]; exact ha
    | ok v0 =>
      simp only [addTrace]
      apply ih
      cases s with
      | update_1 => rw [hupd] at h; cases h; exact rfl
      | login => exact ha
      | versionControl => exact ha
      | getProperties => exact ha
      | getCRM => exact ha
      | blocklist => exact ha
      | createAccount => exact ha
      | update_2 => exact ha

/-- If `update_1` was invoked (and extracts `v`), the final run state
holds `seq = v`. -/
theorem runStepsFrom_act_seq_mem (clock : Nat → String) (env : Step → StepResult)
    (v : String) (hupd : env Step.update_1 = StepResult.ok v) :
    ∀ (L : List (String × Step)) (i : Nat) (a : Activator) (rs : RunState),
      Step.update_1 ∈ invokedList (runStepsFrom clock env L i a rs) →
      (runStepsFrom clock env L i a rs).act.seq = v := by
  intro L
  induction L with
  | nil => intro i a rs hm; simp [runStepsFrom, invokedList] at hm
  | cons hd tl ih =>
    intro i a rs hm
    obtain ⟨nm, s⟩ := hd
    simp only [runStepsFrom] at hm ⊢
    cases h : env s with
    | exc m =>
      rw [h] at hm
      simp [invokedList] at hm
      subst hm; rw [hupd] at h; cases h
    | fail =>
      rw [h] at hm
      by_cases hl : lenient s
      · simp only [hl, if_true, addTrace] at hm ⊢
        simp [invokedList] at hm
        rcases hm with rfl | hm
        · rw [hupd] at h; cases h
        · exact ih (i + 1) a _ (by simpa [invokedList] using hm)
      · simp [hl, invokedList] at hm
        subst hm; rw [hupd] at h; cases h
    | ok v0 =>
      rw [h] at hm
      simp only [addTrace] at hm ⊢
      simp [invokedList] at hm
      rcases hm with rfl | hm
      · rw [hupd] at h; cases h
        exact runStepsFrom_act_seq_inv clock env v hupd tl (i + 1) _ _ rfl
      · exact ih (i + 1) _ _ (by simpa [invokedList] using hm)

/-- With `seq` already equal to `v`, every `getCRM` / `createAccount`
request in the rest of the loop carries `("seqVal", v)`. -/
theorem runStepsFrom_trace_seq_inv (clock : Nat → String) (env : Step → StepResult)
    (v : String) (hupd : env Step.update_1 = StepResult.ok v) :
    ∀ (L : List (String × Step)) (i : Nat) (a : Activator) (rs : RunState),
      a.seq = v →
      ∀ p ∈ (runStepsFrom clock env L i a rs).trace,
        p.1 = Step.getCRM ∨ p.1 = Step.createAccount → ("seqVal", v) ∈ p.2.data := by
  intro L
  induction L with
  | nil => intro i a rs _ p hp; simp [runStepsFrom] at hp
  | cons hd tl ih =>
    intro i a rs ha p hp hc
    obtain ⟨nm, s⟩ := hd
    simp only [runStepsFrom] at hp
    cases h : env s with
    | exc m =>
      rw [h] at hp; simp at hp; subst hp
      exact ha ▸ stepRequest_seqVal s a hc
    | fail =>
      rw [h] at hp
      by_cases hl : lenient s
      · simp [hl, addTrace] at hp
        rcases hp with rfl | hp
        · exact ha ▸ stepRequest_seqVal s a hc
        · exact ih (i + 1) a _ ha p hp hc
      · simp [hl] at hp; subst hp
        exact ha ▸ stepRequest_seqVal s a hc
    | ok v0 =>
      rw [h] at hp
      simp [addTrace] at hp
      rcases hp with rfl | hp
      · exact ha ▸ stepRequest_seqVal s a hc
      · refine ih (i + 1) (applyExtract s v0 a) _ ?_ p hp hc
        cases s with
        | update_1 => rw [hupd] at h; cases h; exact rfl
        | login => exact ha
        | versionControl => exact ha
        | getProperties => exact ha
        | getCRM => exact ha
        | blocklist => exact ha
        | createAccount => exact ha
        | update_2 => exact ha

/-- If no `getCRM` / `createAccount` entry comes before the first
`update_1` entry, every `getCRM` / `createAccount` request in the loop
carries the `seqValue` `v` extracted by `update_1`. -/
theorem runStepsFrom_trace_seq (clock : Nat → String) (env : Step → StepResult)
    (v : String) (hupd : env Step.update_1 = StepResult.ok v) :
    ∀ (L : List (String × Step)) (i : Nat) (a : Activator) (rs : RunState),
      seqOrderOK (L.map Prod.snd) = true →
      ∀ p ∈ (runStepsFrom clock env L i a rs).trace,
        p.1 = Step.getCRM ∨ p.1 = Step.createAccount → ("seqVal", v) ∈ p.2.data := by
  intro L
  induction L with
  | nil => intro i a rs _ p hp; simp [runStepsFrom] at hp
  | cons hd tl ih =>
    intro i a rs hord p hp hc
    obtain ⟨nm, s⟩ := hd
    have hord' : (!(s == Step.getCRM || s == Step.createAccount)) = true ∧
        (s == Step.update_1 || seqOrderOK (tl.map Prod.snd)) = true := by
      simpa [seqOrderOK, Bool.and_eq_true] using hord
    have hnc : s ≠ Step.getCRM ∧ s ≠ Step.createAccount := by
      rcases hord' with ⟨h1, _⟩
      constructor <;> intro hq <;> subst hq <;> simp at h1
    simp only [runStepsFrom] at hp
    cases h : env s with
    | exc m =>
      rw [h] at hp; simp at hp; subst hp
      rcases hc with hq | hq <;> simp at hq <;> simp [hq] at hnc
    | fail =>
      rw [h] at hp
      by_cases hl : lenient s
      · simp [hl, addTrace] at hp
        rcases hp with rfl | hp
        · rcases hc with hq | hq <;> simp at hq <;> simp [hq] at hnc
        · have hs1 : s ≠ Step.update_1 := by
            intro hq; subst hq; simp [lenient] at hl
          have : seqOrderOK (tl.map Prod.snd) = true := by
            rcases hord' with ⟨_, h2⟩
            rcases Bool.or_eq_true_iff.mp h2 with hq | hq
            · exact absurd (by simpa using hq) hs1
            · exact hq
          exact ih (i + 1) a _ this p hp hc
      · simp [hl] at hp; subst hp
        rcases hc with hq | hq <;> simp at hq <;> simp [hq] at hnc
    | ok v0 =>
      rw [h] at hp
      simp [addTrace] at hp
      rcases hp with rfl | hp
      · rcases hc with hq | hq <;> simp at hq <;> simp [hq] at hnc
      · by_cases hs1 : s = Step.update_1
        · subst hs1
          rw [hupd] at h; cases h
          exact runStepsFrom_trace_seq_inv clock env v hupd tl (i + 1) _ _ rfl p hp hc
        · have : seqOrderOK (tl.map Prod.snd) = true := by
            rcases hord' with ⟨_, h2⟩
            rcases Bool.or_eq_true_iff.mp h2 with hq | hq
            · exact absurd (by simpa using hq) hs1
            · exact hq
          exact ih (i + 1) _ _ this p hp hc

/-- Appending extensions composes. -/
theorem ext_append_trans {x y z : List Char}
    (h1 : ∃ e, y = x ++ e) (h2 : ∃ e, z = y ++ e) : ∃ e, z = x ++ e := by
  obtain ⟨e1, rfl⟩ := h1
  obtain ⟨e2, rfl⟩ := h2
  exact ⟨e1 ++ e2, List.append_assoc x e1 e2⟩

/-- A status callback only appends to the log. -/
theorem tickStatus_status_ext (clock : Nat → String) (msg : String) (rs : RunState) :
    ∃ e, (tickStatus clock msg rs).record.status.data = rs.record.status.data ++ e := by
  refine ⟨("\n[" ++ clock rs.tick ++ "] " ++ msg).data, ?_⟩
  simp [tickStatus, update_status, String.data_append]

/-- The per-iteration entry callbacks only append to the log. -/
theorem stepEntry_status_ext (clock : Nat → String) (i : Nat) (nm : String) (rs : RunState) :
    ∃ e, (stepEntry clock i nm rs).record.status.data = rs.record.status.data ++ e := by
  have h := tickStatus_status_ext clock ("Step " ++ toString (i + 1) ++ "/8: " ++ nm) rs
  simpa [stepEntry, progressOn, update_progress] using h

/-- The whole step loop only appends to the log. -/
theorem runStepsFrom_status_ext (clock : Nat → String) (env : Step → StepResult) :
    ∀ (L : List (String × Step)) (i : Nat) (a : Activator) (rs : RunState),
      ∃ e, (runStepsFrom clock env L i a rs).state.record.status.data =
        rs.record.status.data ++ e := by
  intro L
  induction L with
  | nil =>
    intro i a rs
    exact tickStatus_status_ext clock "🎉 Activation completed!" rs
  | cons hd tl ih =>
    intro i a rs
    obtain ⟨nm, s⟩ := hd
    simp only [runStepsFrom]
    cases h : env s with
    | exc m =>
      exact ext_append_trans (stepEntry_status_ext clock i nm rs)
        (tickStatus_status_ext clock _ _)
    | fail =>
      by_cases hl : lenient s
      · simp only [hl, if_true, addTrace]
        refine ext_append_trans (ext_append_trans (stepEntry_status_ext clock i nm rs)
          (tickStatus_status_ext clock ("✅ " ++ nm ++ ": Complete") (stepEntry clock i nm rs))) ?_
        exact ih (i + 1) a _
      · simp only [hl, if_false, Bool.false_eq_true]
        exact ext_append_trans (stepEntry_status_ext clock i nm rs)
          (tickStatus_status_ext clock _ _)
    | ok v =>
      simp only [addTrace]
      refine ext_append_trans (ext_append_trans (stepEntry_status_ext clock i nm rs)
        (tickStatus_status_ext clock ("✅ " ++ nm ++ ": Complete") (stepEntry clock i nm rs))) ?_
      exact ih (i + 1) _ _

/-- `run_activation`'s epilogue only appends to the log. -/
theorem runActivation_status_ext (radio_id : String) (r : Except String Bool)
    (st : ActivationStatus) :
    ∃ e, (runActivation radio_id r st).status.data = st.status.data ++ e := by
  cases r with
  | ok b =>
    refine ⟨(if b then "\n🎉 Radio " ++ radio_id ++ " activated successfully!"
      else "\n❌ Radio " ++ radio_id ++ " activation failed").data, ?_⟩
    simp [runActivation, String.data_append]
  | error e =>
    refine ⟨("\n❌ Error: " ++ e).data, ?_⟩
    simp [runActivation, String.data_append]

/-- Pointwise: under "lenient steps never raise", non-abortion of a step
list equals success of all its non-lenient steps. -/
theorem all_not_aborts_eq_filter (env : Step → StepResult) :
    ∀ (L : List Step), (∀ s ∈ L, lenient s = true → isExcB (env s) = false) →
      (L.all fun s => !stepAborts env s) =
        ((L.filter fun s => !lenient s).all fun s => isOkB (env s)) := by
  intro L
  induction L with
  | nil => intro _; rfl
  | cons u r ih =>
    intro h
    have hr := ih fun s hs => h s (List.mem_cons_of_mem _ hs)
    by_cases hl : lenient u
    · have hu : stepAborts env u = false := by
        have hne := h u (List.mem_cons_self u r) hl
        cases he : env u with
        | ok v => simp [stepAborts, he]
        | fail => simp [stepAborts, he, hl]
        | exc m => rw [he] at hne; simp [isExcB] at hne
      simp [List.all_cons, List.filter_cons, hl, hu, hr]
    · have hu : (!stepAborts env u) = isOkB (env u) := by
        cases he : env u <;> simp [stepAborts, he, hl, isOkB]
      simp [List.all_cons, List.filter_cons, hl, hu, hr]

/-- Under "lenient steps never raise", a step aborts exactly when it is
non-lenient and returns `None`-or-raises, i.e. when it is critical and
not ok. -/
theorem stepAborts_of_critical_ok (env : Step → StepResult) (s : Step)
    (hcrit : lenient s = false) (hok : isOkB (env s) = true) :
    stepAborts env s = false := by
  cases he : env s <;> simp [stepAborts, he, hcrit] <;> simp [isOkB, he] at hok

/-- `Char.ofNat` round-trips on valid codepoints. -/
theorem toNat_ofNat_valid (n : Nat) (h : n.isValidChar) : (Char.ofNat n).toNat = n := by
  rw [Char.ofNat, dif_pos h]; rfl

/-- Upper-casing never creates or destroys whitespace. -/
theorem isPySpace_toUpper (c : Char) : isPySpace (Char.toUpper c) = isPySpace c := by
  by_cases h : c.toNat ≥ 97 ∧ c.toNat ≤ 122
  · have ht : Char.toUpper c = Char.ofNat (c.toNat - 32) := by
      show (if c.toNat ≥ 97 ∧ c.toNat ≤ 122 then Char.ofNat (c.toNat - 32) else c) =
        Char.ofNat (c.toNat - 32)
      rw [if_pos h]
    have hv : (Char.ofNat (c.toNat - 32)).toNat = c.toNat - 32 :=
      toNat_ofNat_valid _ (Or.inl (by omega))
    have hL : isPySpace (Char.ofNat (c.toNat - 32)) = false := by
      simp only [isPySpace, hv, Bool.or_eq_false_iff, Bool.and_eq_false_iff,
        beq_eq_false_iff_ne, decide_eq_false_iff_not]
      omega
    have hR : isPySpace c = false := by
      simp only [isPySpace, Bool.or_eq_false_iff, Bool.and_eq_false_iff,
        beq_eq_false_iff_ne, decide_eq_false_iff_not]
      omega
    rw [ht, hL, hR]
  · have ht : Char.toUpper c = c := by
      show (if c.toNat ≥ 97 ∧ c.toNat ≤ 122 then Char.ofNat (c.toNat - 32) else c) = c
      rw [if_neg h]
    rw [ht]

/-- Stripping commutes with upper-casing on character lists. -/
theorem stripChars_map_toUpper (l : List Char) :
    stripChars (l.map Char.toUpper) = (stripChars l).map Char.toUpper := by
  have hps : (isPySpace ∘ Char.toUpper) = isPySpace := funext fun c => isPySpace_toUpper c
  unfold stripChars
  rw [List.dropWhile_map, hps, ← List.map_reverse, List.dropWhile_map, hps, ← List.map_reverse]

/-- `s.strip().upper()` equals `s.upper().strip()`. -/
theorem pyUpper_pyStrip (s : String) : pyUpper (pyStrip s) = pyStrip (pyUpper s) := by
  show String.mk ((stripChars s.data).map Char.toUpper) = String.mk (stripChars (s.data.map Char.toUpper))
  exact congrArg String.mk (stripChars_map_toUpper s.data).symm

/-! Claim theorems. -/

/-- C1: for every activation run, if a step classified critical (any
non-lenient step) fails or raises an exception and that step is reached,
the loop aborts immediately: `activate_radio` returns `False`, no step
later in the ordered list is ever invoked, and the worker thread marks
the run failed (`success = False`, `completed = True`). -/
theorem c1_critical_abort (clock : Nat → String) (env : Step → StepResult)
    (radio_id uuid4 : String) (st0 : ActivationStatus) (s : Step)
    (hcrit : lenient s = false)
    (hfail : env s = StepResult.fail ∨ ∃ m, env s = StepResult.exc m)
    (hinv : s ∈ invokedList (activateRadio clock env radio_id uuid4 { record := st0, tick := 0 })) :
    (activateRadio clock env radio_id uuid4 { record := st0, tick := 0 }).result = false ∧
    (∀ t ∈ invokedList (activateRadio clock env radio_id uuid4 { record := st0, tick := 0 }),
      stepIdx t ≤ stepIdx s) ∧
    (fullRun clock env radio_id uuid4 st0).success = false ∧
    (fullRun clock env radio_id uuid4 st0).completed = true := by
  have habort : stepAborts env s = true := by
    rcases hfail with hf | ⟨m, hm⟩
    · simp [stepAborts, hf, hcrit]
    · simp [stepAborts, hm]
  have hiv : invokedList (activateRadio clock env radio_id uuid4 { record := st0, tick := 0 }) =
      takeUntilAbort env (stepsList.map Prod.snd) := by
    unfold activateRadio
    exact runStepsFrom_invoked clock env stepsList 0 _ _
  rw [hiv] at hinv
  have hres : (activateRadio clock env radio_id uuid4
      { record := st0, tick := 0 }).result = false := by
    unfold activateRadio
    rw [runStepsFrom_result]
    have hsmem : s ∈ stepsList.map Prod.snd := takeUntilAbort_subset env _ s hinv
    rcases List.mem_map.mp hsmem with ⟨p, hp, hps⟩
    cases hall : stepsList.all fun p => !stepAborts env p.2
    · rfl
    · exfalso
      have := List.all_eq_true.mp hall p hp
      rw [hps, habort] at this
      simp at this
  refine ⟨hres, ?_, ?_, ?_⟩
  · rw [hiv]
    exact takeUntilAbort_le_abort env s habort _ stepsOrder_pairwise hinv
  · simp [fullRun, hres, runActivation]
  · simp [fullRun, hres, runActivation]

/-- C1 witness: a concrete run whose (critical) login step fails. -/
theorem c1_witness :
    (activateRadio clock0 envLoginFail "H55EU0R5" "uuid-1"
      { record := initialStatus, tick := 0 }).result = false ∧
    (fullRun clock0 envLoginFail "H55EU0R5" "uuid-1" initialStatus).success = false :=
  ⟨(c1_critical_abort clock0 envLoginFail "H55EU0R5" "uuid-1" initialStatus Step.login
      (by decide) (Or.inl rfl) (by decide)).1,
   (c1_critical_abort clock0 envLoginFail "H55EU0R5" "uuid-1" initialStatus Step.login
      (by decide) (Or.inl rfl) (by decide)).2.2.1⟩

/-- C2 counterexample: in an all-success run the record at completion has
`success = True` but its progress counter is 9, not the workflow's step
count 8 (`run_activation` sets `progress = 9` unconditionally). -/
theorem c2_counterexample :
    (fullRun clock0 envAllOk "H55EU0R5" "uuid-1" initialStatus).success = true ∧
    (fullRun clock0 envAllOk "H55EU0R5" "uuid-1" initialStatus).completed = true ∧
    (fullRun clock0 envAllOk "H55EU0R5" "uuid-1" initialStatus).progress ≠ stepsList.length := by
  decide

/-- C2 (amended): if every step succeeds, the run completes with
`success = True` and the progress counter equal to 9 — one more than the
8-step count, because `run_activation` overwrites it with the literal 9
after the workflow returns. -/
theorem c2_amended (clock : Nat → String) (env : Step → StepResult)
    (radio_id uuid4 : String) (st0 : ActivationStatus)
    (h : stepsList.all (fun p => isOkB (env p.2)) = true) :
    (fullRun clock env radio_id uuid4 st0).success = true ∧
    (fullRun clock env radio_id uuid4 st0).completed = true ∧
    (fullRun clock env radio_id uuid4 st0).progress = stepsList.length + 1 := by
  have hres : (activateRadio clock env radio_id uuid4
      { record := st0, tick := 0 }).result = true := by
    unfold activateRadio
    rw [runStepsFrom_result]
    apply List.all_eq_true.mpr
    intro p hp
    have hok := List.all_eq_true.mp h p hp
    cases he : env p.2 with
    | ok v => simp [stepAborts, he]
    | fail => rw [he] at hok; simp [isOkB] at hok
    | exc m => rw [he] at hok; simp [isOkB] at hok
  refine ⟨?_, ?_, ?_⟩ <;> simp [fullRun, hres, runActivation, stepsList]

/-- C2 witness: the amended claim at a concrete all-success run. -/
theorem c2_witness :
    (fullRun clock0 envAllOk "H55EU0R5" "uuid-1" initialStatus).success = true ∧
    (fullRun clock0 envAllOk "H55EU0R5" "uuid-1" initialStatus).completed = true ∧
    (fullRun clock0 envAllOk "H55EU0R5" "uuid-1" initialStatus).progress = stepsList.length + 1 :=
  c2_amended clock0 envAllOk "H55EU0R5" "uuid-1" initialStatus (by decide)

/-- C3 counterexample: a concrete all-success run invokes a chain that is
not the canonical 11-step chain of the claim: it has no db-update and no
oracle-lookup step (only 8 of the 10 named steps exist). -/
theorem c3_counterexample :
    (invokedList (activateRadio clock0 envAllOk "H55EU0R5" "uuid-1" rs0)).map stepSpecName ≠
      canonicalChainSpec ∧
    "db-update" ∉ (invokedList (activateRadio clock0 envAllOk "H55EU0R5" "uuid-1" rs0)).map
      stepSpecName ∧
    "oracle-lookup" ∉ (invokedList (activateRadio clock0 envAllOk "H55EU0R5" "uuid-1" rs0)).map
      stepSpecName := by
  decide

/-- C3 (amended): an activation run in which every step succeeds executes
exactly the code's fixed 8-step ordered chain — the claim's canonical
chain with its db-update and oracle-lookup entries removed (those steps
do not exist in the code). -/
theorem c3_amended (clock : Nat → String) (env : Step → StepResult)
    (radio_id uuid4 : String) (rs : RunState)
    (h : stepsList.all (fun p => isOkB (env p.2)) = true) :
    invokedList (activateRadio clock env radio_id uuid4 rs) = stepsList.map Prod.snd ∧
    (stepsList.map Prod.snd).map stepSpecName =
      canonicalChainSpec.filter (fun n => !(n == "db-update" || n == "oracle-lookup")) := by
  constructor
  · unfold activateRadio
    rw [runStepsFrom_invoked]
    apply takeUntilAbort_all
    intro s hs
    rcases List.mem_map.mp hs with ⟨p, hp, rfl⟩
    have hok := List.all_eq_true.mp h p hp
    cases he : env p.2 with
    | ok v => simp [stepAborts, he]
    | fail => rw [he] at hok; simp [isOkB] at hok
    | exc m => rw [he] at hok; simp [isOkB] at hok
  · decide

/-- C3 witness: the amended claim at a concrete all-success run. -/
theorem c3_witness :
    invokedList (activateRadio clock0 envAllOk "H55EU0R5" "uuid-1" rs0) =
      stepsList.map Prod.snd ∧
    (stepsList.map Prod.snd).map stepSpecName =
      canonicalChainSpec.filter (fun n => !(n == "db-update" || n == "oracle-lookup")) :=
  c3_amended clock0 envAllOk "H55EU0R5" "uuid-1" rs0 (by decide)

/-- C4 counterexample: the `/activate` handler does not reset the record
to status "Ready": the status field it writes is "Starting activation...". -/
theorem c4_counterexample :
    activateRoute (some "H55EU0R5")
      { progress := 5, status := "old log", completed := true, success := true } ≠
    Except.ok initialStatus := by
  simp [activateRoute, initialStatus]

/-- C4 (amended): for every accepted (non-empty) identifier the shared
record is reset, regardless of the previous record, to
(progress 0, status "Starting activation...", completed False,
success False) — the status text differs from the claimed "Ready". -/
theorem c4_amended (radio_id : String) (prev : ActivationStatus) (h : radio_id ≠ "") :
    activateRoute (some radio_id) prev =
      Except.ok
        { progress := 0, status := "Starting activation...",
          completed := false, success := false } := by
  simp [activateRoute, h]

/-- C4 witness: a concrete accepted request over a previous in-flight
record. -/
theorem c4_witness :
    activateRoute (some "H55EU0R5")
      { progress := 5, status := "old log", completed := true, success := true } =
      Except.ok
        { progress := 0, status := "Starting activation...",
          completed := false, success := false } :=
  c4_amended "H55EU0R5"
    { progress := 5, status := "old log", completed := true, success := true } (by decide)

/-- C5: in a run whose login step succeeds with token `t` and whose
device-refresh-1 step succeeds with sequence value `v`, every request
sent by a step other than login carries `("X-Voltmx-Authorization", t)`
in its headers, the final run state holds `auth_token = t`, every
request of the CRM-info and create-account steps carries
`("seqVal", v)` in its form data, and once device-refresh-1 has run the
run state holds `seq = v`. -/
theorem c5_token_threading (clock : Nat → String) (env : Step → StepResult)
    (radio_id uuid4 : String) (rs : RunState) (t v : String)
    (hlogin : env Step.login = StepResult.ok t)
    (hupd : env Step.update_1 = StepResult.ok v) :
    (∀ p ∈ (activateRadio clock env radio_id uuid4 rs).trace,
      p.1 = Step.login ∨ ("X-Voltmx-Authorization", t) ∈ p.2.headers) ∧
    (∀ p ∈ (activateRadio clock env radio_id uuid4 rs).trace,
      p.1 = Step.getCRM ∨ p.1 = Step.createAccount → ("seqVal", v) ∈ p.2.data) ∧
    (activateRadio clock env radio_id uuid4 rs).act.auth_token = t ∧
    (Step.update_1 ∈ invokedList (activateRadio clock env radio_id uuid4 rs) →
      (activateRadio clock env radio_id uuid4 rs).act.seq = v) := by
  refine ⟨?_, ?_, ?_, ?_⟩
  · unfold activateRadio
    exact runStepsFrom_trace_auth clock env t hlogin stepsList 0 _ _ (Or.inr rfl)
  · unfold activateRadio
    exact runStepsFrom_trace_seq clock env v hupd stepsList 0 _ _ (by decide)
  · unfold activateRadio
    apply runStepsFrom_act_auth_mem clock env t hlogin
    rw [runStepsFrom_invoked]
    have hna : stepAborts env Step.login = false := by simp [stepAborts, hlogin]
    simp only [stepsList, List.map_cons, takeUntilAbort, hna]
    simp
  · intro hm
    unfold activateRadio at hm ⊢
    exact runStepsFrom_act_seq_mem clock env v hupd stepsList 0 _ _ hm

/-- C5 witness: a concrete run with distinguished token and sequence
value ends with both stored in run state. -/
theorem c5_witness :
    (activateRadio clock0 envThread "H55EU0R5" "uuid-1" rs0).act.auth_token = "TOK" ∧
    (activateRadio clock0 envThread "H55EU0R5" "uuid-1" rs0).act.seq = "SEQ" :=
  ⟨(c5_token_threading clock0 envThread "H55EU0R5" "uuid-1" rs0 "TOK" "SEQ" rfl rfl).2.2.1,
   (c5_token_threading clock0 envThread "H55EU0R5" "uuid-1" rs0 "TOK" "SEQ" rfl rfl).2.2.2
     (by decide)⟩

/-- C6: workflow-level errors never escape the worker thread:
whatever `activate_radio` did — returned a boolean or raised — the
record ends with `completed = True` and `success` equal to the boolean
result (`False` when an exception escaped); in the composed run the
final `success` is exactly the boolean `activate_radio` returned. -/
theorem c6_errors_folded (radio_id : String) (r : Except String Bool) (st : ActivationStatus) :
    (runActivation radio_id r st).completed = true ∧
    (runActivation radio_id r st).success =
      (match r with | Except.ok b => b | Except.error _ => false) ∧
    ∀ (clock : Nat → String) (env : Step → StepResult) (uuid4 : String)
      (st0 : ActivationStatus),
      (fullRun clock env radio_id uuid4 st0).success =
        (activateRadio clock env radio_id uuid4 { record := st0, tick := 0 }).result := by
  refine ⟨?_, ?_, ?_⟩
  · cases r <;> rfl
  · cases r <;> rfl
  · intro clock env uuid4 st0
    rfl

/-- C7: the status log is append-only within a run: `update_status`
appends exactly one timestamped line (so the previous status is a
prefix of the new one and the length strictly grows), and over a whole
worker-thread run the final status extends the initial status. -/
theorem c7_status_append_only (ts msg : String) (st : ActivationStatus) :
    (update_status ts msg st).status.data =
      st.status.data ++ ("\n[" ++ ts ++ "] " ++ msg).data ∧
    st.status.length < (update_status ts msg st).status.length ∧
    ∀ (clock : Nat → String) (env : Step → StepResult) (radio_id uuid4 : String)
      (st0 : ActivationStatus),
      ∃ e, (fullRun clock env radio_id uuid4 st0).status.data = st0.status.data ++ e := by
  have h1 : (update_status ts msg st).status.data =
      st.status.data ++ ("\n[" ++ ts ++ "] " ++ msg).data := by
    simp [update_status, String.data_append]
  refine ⟨h1, ?_, ?_⟩
  · show st.status.data.length < (update_status ts msg st).status.data.length
    rw [h1, List.length_append]
    have h2 : ("\n[" ++ ts ++ "] " ++ msg).data.length =
        ts.data.length + msg.data.length + 4 := by
      simp [String.data_append]
      omega
    omega
  · intro clock env radio_id uuid4 st0
    unfold fullRun activateRadio
    have e1 := tickStatus_status_ext clock
      ("🔄 Starting activation for: " ++ pyUpper radio_id) { record := st0, tick := 0 }
    have e2 := runStepsFrom_status_ext clock env stepsList 0
      ((mkActivator uuid4) |> fun a0 => { a0 with radio_id_input := pyUpper radio_id })
      (tickStatus clock ("🔄 Starting activation for: " ++ pyUpper radio_id)
        { record := st0, tick := 0 })
    have e3 := runActivation_status_ext radio_id
      (Except.ok (runStepsFrom clock env stepsList 0
        ((mkActivator uuid4) |> fun a0 => { a0 with radio_id_input := pyUpper radio_id })
        (tickStatus clock ("🔄 Starting activation for: " ++ pyUpper radio_id)
          { record := st0, tick := 0 })).result)
      ((runStepsFrom clock env stepsList 0
        ((mkActivator uuid4) |> fun a0 => { a0 with radio_id_input := pyUpper radio_id })
        (tickStatus clock ("🔄 Starting activation for: " ++ pyUpper radio_id)
          { record := st0, tick := 0 })).state.record)
    exact ext_append_trans (ext_append_trans e1 e2) e3

/-- C8 counterexample: the submitted identifier " h55eu0r5" (with a
leading space) is placed in run state as " H55EU0R5" — upper-cased but
not trimmed, unlike the claimed normalization. -/
theorem c8_counterexample :
    (activateRadio clock0 envAllOk " h55eu0r5" "uuid-1" rs0).act.radio_id_input ≠
      specNormalize " h55eu0r5" := by
  decide

/-- C8 (amended): the submitted identifier is upper-cased (but not
trimmed) before being placed in run state, and every request field that
uses it (`deviceId` of device-refresh-1, CRM-info, create-account,
device-refresh-2) carries that upper-cased value; in particular
"h55eu0r5" becomes "H55EU0R5". -/
theorem c8_amended (clock : Nat → String) (env : Step → StepResult)
    (radio_id uuid4 : String) (rs : RunState) :
    (activateRadio clock env radio_id uuid4 rs).act.radio_id_input = pyUpper radio_id ∧
    (∀ p ∈ (activateRadio clock env radio_id uuid4 rs).trace, usesDeviceId p.1 = true →
      ("deviceId", pyUpper radio_id) ∈ p.2.data) ∧
    pyUpper "h55eu0r5" = "H55EU0R5" := by
  refine ⟨?_, ?_, by decide⟩
  · unfold activateRadio
    rw [runStepsFrom_radio_id]
  · unfold activateRadio
    intro p hp hu
    exact runStepsFrom_trace_deviceId clock env stepsList 0 _ _ p hp hu

/-- C8 witness: the amended claim at the spec's concrete identifier. -/
theorem c8_witness :
    (activateRadio clock0 envAllOk "h55eu0r5" "uuid-1" rs0).act.radio_id_input =
      pyUpper "h55eu0r5" ∧
    pyUpper "h55eu0r5" = "H55EU0R5" :=
  ⟨(c8_amended clock0 envAllOk "h55eu0r5" "uuid-1" rs0).1,
   (c8_amended clock0 envAllOk "h55eu0r5" "uuid-1" rs0).2.2⟩

/-- C9: over any store satisfying the data-model invariant (identifiers
non-empty, trimmed, upper-case), an add whose identifier is already
present up to case fails with the duplicate-identifier error and the
store is unchanged. -/
theorem c9_duplicate_add_rejected (store : List RadioRec) (nameRaw ridRaw : String)
    (hstore : storeNormalized store = true)
    (hname : pyStrip nameRaw ≠ "")
    (hdup : ∃ r ∈ store, pyUpper r.radio_id = pyUpper ridRaw) :
    (add_radio store nameRaw ridRaw).1 = store ∧
    ∃ ex, (add_radio store nameRaw ridRaw).2 =
      some ("Radio ID " ++ apos ++ pyUpper (pyStrip ridRaw) ++ apos ++
        " already exists for " ++ apos ++ ex ++ apos) := by
  obtain ⟨r, hr, hru⟩ := hdup
  have hfacts : (r.radio_id ≠ "" ∧ pyStrip r.radio_id = r.radio_id) ∧
      pyUpper r.radio_id = r.radio_id := by
    have := List.all_eq_true.mp hstore r hr
    simpa [Bool.and_eq_true] using this
  obtain ⟨⟨hne, hstr⟩, hupp⟩ := hfacts
  have key : pyUpper (pyStrip ridRaw) = r.radio_id := by
    rw [pyUpper_pyStrip, ← hru, hupp, hstr]
  have hrid_ne : pyUpper (pyStrip ridRaw) ≠ "" := by rw [key]; exact hne
  have hfind : (store.find? fun r0 => r0.radio_id == pyUpper (pyStrip ridRaw)).isSome := by
    apply List.find?_isSome.mpr
    exact ⟨r, hr, by rw [key]; simp⟩
  obtain ⟨ex, hex⟩ := Option.isSome_iff_exists.mp hfind
  refine ⟨?_, ex.name, ?_⟩ <;>
    simp [add_radio, add_radio_to_db_sqlite, hname, hrid_ne, hex]

/-- C9 witness: adding "abc12345" over a store containing "ABC12345"
fails with the duplicate error and leaves the store unchanged. -/
theorem c9_witness :
    (add_radio store0 "Another" "abc12345").1 = store0 ∧
    ∃ ex, (add_radio store0 "Another" "abc12345").2 =
      some ("Radio ID " ++ apos ++ pyUpper (pyStrip "abc12345") ++ apos ++
        " already exists for " ++ apos ++ ex ++ apos) :=
  c9_duplicate_add_rejected store0 "Another" "abc12345" (by decide) (by decide) (by decide)

/-- C10: provided the three lenient steps (blocklist, create-account,
device-refresh-2) never raise — in the source each catches every
exception and returns `True` or `None` — the run's boolean result is
exactly "every critical step returned non-`None`", so their outcomes
never affect it; and when all critical steps succeed, the loop invokes
all eight steps whatever the lenient steps returned. -/
theorem c10_lenient_no_fail (clock : Nat → String) (env : Step → StepResult)
    (radio_id uuid4 : String) (rs : RunState)
    (hnoexc : ∀ s : Step, lenient s = true → isExcB (env s) = false) :
    (activateRadio clock env radio_id uuid4 rs).result =
      ((stepsList.map Prod.snd).filter (fun s => !lenient s)).all (fun s => isOkB (env s)) ∧
    (((stepsList.map Prod.snd).filter (fun s => !lenient s)).all (fun s => isOkB (env s)) = true →
      invokedList (activateRadio clock env radio_id uuid4 rs) = stepsList.map Prod.snd) := by
  constructor
  · unfold activateRadio
    rw [runStepsFrom_result]
    rw [← all_not_aborts_eq_filter env (stepsList.map Prod.snd) fun s _ hl => hnoexc s hl]
    have hmap : ∀ (l : List (String × Step)),
        ((l.map Prod.snd).all fun s => !stepAborts env s) =
          l.all fun p => !stepAborts env p.2 := by
      intro l
      induction l with
      | nil => rfl
      | cons h t ih => simp [List.all_cons, ih]
    rw [hmap stepsList]
  · intro hall
    unfold activateRadio
    rw [runStepsFrom_invoked]
    apply takeUntilAbort_all
    intro s hs
    by_cases hl : lenient s
    · have hx := hnoexc s hl
      cases he : env s with
      | ok v => simp [stepAborts, he]
      | fail => simp [stepAborts, he, hl]
      | exc m => rw [he] at hx; simp [isExcB] at hx
    · have hm : s ∈ (stepsList.map Prod.snd).filter (fun s => !lenient s) :=
        List.mem_filter.mpr ⟨hs, by simp [hl]⟩
      have hok := List.all_eq_true.mp hall s hm
      exact stepAborts_of_critical_ok env s (Bool.eq_false_iff.mpr hl) hok

/-- C10 witness: a run where exactly the three lenient steps return
`None` still succeeds and invokes all eight steps. -/
theorem c10_witness :
    (activateRadio clock0 envLenFail "H55EU0R5" "uuid-1" rs0).result =
      ((stepsList.map Prod.snd).filter (fun s => !lenient s)).all
        (fun s => isOkB (envLenFail s)) ∧
    invokedList (activateRadio clock0 envLenFail "H55EU0R5" "uuid-1" rs0) =
      stepsList.map Prod.snd :=
  ⟨(c10_lenient_no_fail clock0 envLenFail "H55EU0R5" "uuid-1" rs0 (by decide)).1,
   (c10_lenient_no_fail clock0 envLenFail "H55EU0R5" "uuid-1" rs0 (by decide)).2 (by decide)⟩
